import Mathlib

/-!
A verification development for the BMP obfuscation/deobfuscation pipeline.

The program consists of three translation units sharing the same helpers:
* an encoder (`part_001`): `P1 = I_O XOR I_M`, `P2 = rotateRight(P1,3)`,
  `P3 = P2 XOR I_M`, all byte-wise over the whole pixel buffer;
* a decoder (`part_002`): XOR with `I_M`, then (guarded) mask restoration
  with `S2` followed by a whole-buffer rotate-left by 3, then (guarded)
  mask restoration with `S1` followed by a final XOR with `I_M`;
* bit-level helpers (`part_000`) and the mask-file parser `loadSeedMasking`
  (present in all units with identical read logic).

Pixel buffers are embedded as `List Nat` of byte values (each `< 256`,
in row-major R,G,B order, `width*height*3` bytes); the `unsigned int`
values parsed from a mask text file are embedded as `Nat` values `< 2^32`;
C `int` quantities that can be negative (the parsed seed, loop bounds)
are embedded as `Int`.
-/

namespace Desafio

/-- `bitwiseXOR` (part_000, lines 51-53) / `bxor` (part_002, lines 55-57):
XOR of two bytes. -/
def bxor (a b : Nat) : Nat := a ^^^ b

/-- `rotateRight` (part_000, lines 69-72): `n = n % 8;
return (byte >> n) | (byte << (8 - n));` — the `int` result of the shift/or
expression is truncated to `unsigned char` on return, i.e. reduced mod 256. -/
def rotateRight (b n : Nat) : Nat := ((b >>> (n % 8)) ||| (b <<< (8 - n % 8))) % 256

/-- `rotateLeft` (part_000, lines 78-81): mirror of `rotateRight`. -/
def rotateLeft (b n : Nat) : Nat := ((b <<< (n % 8)) ||| (b >>> (8 - n % 8))) % 256

/-- `brotate_left` (part_002, lines 59-62):
`k &= 7; return ((v << k) | (v >> (8 - k))) & 0xFF;`. -/
def brotate_left (v k : Nat) : Nat :=
  ((v <<< (k &&& 7)) ||| (v >>> (8 - (k &&& 7)))) &&& 255

/-- Encoder step 1 (part_001, lines 122-124): `p1Data[i] = ioData[i] ^ imData[i]`
for every byte index of the buffer. -/
def encodeP1 (X R : List Nat) : List Nat := List.zipWith bxor X R

/-- Encoder step 2 (part_001, lines 136-138):
`p2Data[i] = (p1Loaded[i] >> 3) | (p1Loaded[i] << (8 - 3));`, the `int`
expression truncated to `unsigned char` on assignment. -/
def encodeP2 (P1 : List Nat) : List Nat :=
  P1.map (fun v => ((v >>> 3) ||| (v <<< (8 - 3))) % 256)

/-- Encoder step 3 (part_001, lines 155-157): `p3Data[i] = p2Loaded[i] ^ imReloaded[i]`. -/
def encodeP3 (P2 R : List Nat) : List Nat := List.zipWith bxor P2 R

/-- The encoder's whole forward pipeline (part_001 `main`), on buffers that
round-trip unchanged through the intermediate BMP save/load. -/
def encode (X R : List Nat) : List Nat := encodeP3 (encodeP2 (encodeP1 X R)) R

/-- 2^32, the modulus of C `unsigned int` arithmetic. -/
def UINT_MOD : Nat := 4294967296

/-- The byte stored by one iteration of `desenmascarar` (part_002, line 50):
`static_cast<unsigned char>((S[k] - mask[k]) & 0xFF)` — the subtraction is
performed in `unsigned int` (mod 2^32) and then masked to the low byte. -/
def restoreByte (s m : Nat) : Nat :=
  ((s + (UINT_MOD - m % UINT_MOD)) % UINT_MOD) &&& 255

/-- A single array-element write `img[i] = v` at a C `int` index.
Indices outside `[0, img.length)` are undefined behaviour in C; the
embedding leaves the buffer unchanged there. -/
def setByte (img : List Nat) (i : Int) (v : Nat) : List Nat :=
  if 0 ≤ i then img.set i.toNat v else img

/-- The loop of `desenmascarar` (part_002, lines 48-51): for `k` from `0`
to `n-1`, `img[seed + k] = restoreByte S[k] mask[k]`. -/
def desenLoop (mask S : List Nat) (seed : Int) : Nat → List Nat → List Nat
  | 0, img => img
  | n + 1, img =>
      setByte (desenLoop mask S seed n img) (seed + n)
        (restoreByte (S.getD n 0) (mask.getD n 0))

/-- `desenmascarar` (part_002, lines 44-52).  The null-pointer guards have
no counterpart for list values; the `totalBytes <= 0` guard returns the
buffer unchanged. -/
def desenmascarar (img mask S : List Nat) (seed totalBytes : Int) : List Nat :=
  if totalBytes ≤ 0 then img else desenLoop mask S seed totalBytes.toNat img

/-- C conversion of an `int` to `unsigned int`: reduction mod 2^32. -/
def toU32 (i : Int) : Nat := (i % (UINT_MOD : Int)).toNat

/-- The counting loop of `loadSeedMasking` (part_002, lines 226-227):
`while (f >> r >> g >> b) ++n_pixels;` — one count per complete triplet of
integer tokens; a trailing group of fewer than three tokens fails the
chained extraction and ends the loop without counting. -/
def countPixels : List Int → Nat
  | _ :: _ :: _ :: rest => countPixels rest + 1
  | _ => 0

/-- The result of `loadSeedMasking`: the parsed seed, the triplet count
`n_pixels`, and the flat array `S` of `n_pixels * 3` `unsigned int` values. -/
structure MaskFile where
  seed : Int
  n_pixels : Nat
  S : List Nat
deriving DecidableEq

/-- `loadSeedMasking` (part_002, lines 217-240; the versions in part_000,
part_001 and main.cpp read identically): read the seed, count complete
triplets, rewind, re-read the seed, then read `n_pixels * 3` integers into
an `unsigned int` array.  The second pass re-reads the same token stream,
so it consumes exactly the first `3 * n_pixels` integers after the seed;
the `int` values are converted to `unsigned int` (mod 2^32) on store.
When the file yields no integer at all, `seed` keeps the caller's
initialisation (`0` at every call site) and no triplet is read. -/
def loadSeedMasking (tokens : List Int) : MaskFile :=
  match tokens with
  | [] => ⟨0, 0, []⟩
  | s :: rest =>
      let n := countPixels rest
      ⟨s, n, (rest.take (3 * n)).map toU32⟩

/-- The decoder's whole-buffer XOR loops (part_002, lines 127-129 and
147-149): `img[i] = bxor(img[i], imRand[i])` for every byte index. -/
def xorStage (img imRand : List Nat) : List Nat := List.zipWith bxor img imRand

/-- The decoder's whole-buffer rotation loop (part_002, lines 136-138):
`img[i] = brotate_left(img[i], 3)` for every byte index. -/
def rotStage (img : List Nat) : List Nat := img.map (fun v => brotate_left v 3)

/-- Decoder `main` (part_002, lines 64-170), from just after the five loads
succeed to the buffer passed to `exportImage`:
`img` are the `w × h` pixels of `P3.bmp`, `imRand` the `w2 × h2` pixels of
`I_M.bmp`, `mask` the `mi × mj` pixels of `M.bmp`, and `(seed1, n1, S1)`,
`(seed2, n2, S2)` the parses of `M1.txt` and `M2.txt`.  Returns `none` when
the dimension check fails (the program exits with code 1 before any stage). -/
def decoderMain (w h : Nat) (img : List Nat) (w2 h2 : Nat) (imRand : List Nat)
    (mi mj : Nat) (mask : List Nat)
    (seed1 : Int) (n1 : Nat) (S1 : List Nat)
    (seed2 : Int) (n2 : Nat) (S2 : List Nat) : Option (List Nat) :=
  if w ≠ w2 ∨ h ≠ h2 then none else
  let totalMaskBytes : Int := ((mi * mj * 3 : Nat) : Int)
  let dataSize : Int := ((w * h * 3 : Nat) : Int)
  let img1 := if 0 < dataSize ∧ ((w2 * h2 * 3 : Nat) : Int) = dataSize
              then xorStage img imRand else img
  let img2 := if (n2 : Int) * 3 ≥ totalMaskBytes ∧ seed2 + totalMaskBytes ≤ dataSize
              then rotStage (desenmascarar img1 mask S2 seed2 totalMaskBytes)
              else img1
  let img3 := if (n1 : Int) * 3 ≥ totalMaskBytes ∧ seed1 + totalMaskBytes ≤ dataSize
              then xorStage (desenmascarar img2 mask S1 seed1 totalMaskBytes) imRand
              else img2
  some img3

/-! ### Helper lemmas -/

lemma and255_eq_mod (x : Nat) : x &&& 255 = x % 256 :=
  Nat.and_pow_two_sub_one_eq_mod x 8

lemma restoreByte_lt (s m : Nat) : restoreByte s m < 256 := by
  unfold restoreByte UINT_MOD
  rw [and255_eq_mod]
  omega

/-- Undoing an additive mask: if the recorded value is `(p + m) mod 256`,
`restoreByte` returns `p`. -/
lemma restoreByte_add (p m : Nat) (hp : p < 256) (hm : m < 256) :
    restoreByte ((p + m) % 256) m = p := by
  unfold restoreByte UINT_MOD
  rw [and255_eq_mod]
  omega

lemma restoreByte_cast_int (s m : Nat) :
    (restoreByte s m : Int) = ((s : Int) - (m : Int)) % 256 := by
  unfold restoreByte UINT_MOD
  rw [and255_eq_mod]
  omega

lemma bxor_bxor_cancel (a b : Nat) : bxor (bxor a b) b = a := by
  simp [bxor, Nat.xor_assoc]

lemma bxor_lt (a b : Nat) (ha : a < 256) (hb : b < 256) : bxor a b < 256 := by
  have h256 : (2 : Nat) ^ 8 = 256 := by norm_num
  have h3 : a ^^^ b < 2 ^ 8 :=
    Nat.xor_lt_two_pow (by rw [h256]; exact ha) (by rw [h256]; exact hb)
  rw [h256] at h3
  exact h3

lemma xorStage_cancel (X R : List Nat) (h : X.length = R.length) :
    xorStage (xorStage X R) R = X := by
  unfold xorStage
  induction X generalizing R with
  | nil => simp
  | cons x xs ih =>
    cases R with
    | nil => simp at h
    | cons r rs =>
      simp only [List.zipWith_cons_cons, bxor_bxor_cancel]
      rw [ih rs (by simpa using h)]

lemma length_xorStage (X R : List Nat) (h : X.length = R.length) :
    (xorStage X R).length = X.length := by
  simp [xorStage, List.length_zipWith, h]

lemma length_encodeP1 (X R : List Nat) (h : X.length = R.length) :
    (encodeP1 X R).length = X.length := by
  simp [encodeP1, List.length_zipWith, h]

lemma length_encodeP2 (l : List Nat) : (encodeP2 l).length = l.length := by
  simp [encodeP2]

lemma length_encode (X R : List Nat) (h : X.length = R.length) :
    (encode X R).length = X.length := by
  simp [encode, encodeP3, List.length_zipWith, length_encodeP2, length_encodeP1 X R h, h]

lemma encodeP1_mem_lt (X R : List Nat) (hX : ∀ x ∈ X, x < 256) (hR : ∀ x ∈ R, x < 256) :
    ∀ y ∈ encodeP1 X R, y < 256 := by
  unfold encodeP1
  induction X generalizing R with
  | nil => simp
  | cons x xs ih =>
    cases R with
    | nil => simp
    | cons r rs =>
      intro y hy
      rcases (by simpa using hy : y = bxor x r ∨ y ∈ List.zipWith bxor xs rs) with h | h
      · subst h
        exact bxor_lt x r (hX x (by simp)) (hR r (by simp))
      · exact ih rs (fun a ha => hX a (by simp [ha])) (fun a ha => hR a (by simp [ha])) y h

lemma encodeP2_getD_lt (l : List Nat) (i : Nat) : (encodeP2 l).getD i 0 < 256 := by
  unfold encodeP2
  induction l generalizing i with
  | nil => simp
  | cons a t ih =>
    cases i with
    | zero => simpa using Nat.mod_lt _ (by norm_num)
    | succ j => simpa using ih j

set_option maxRecDepth 4000 in
lemma rot3_cancel_byte : ∀ v, v < 256 →
    brotate_left (((v >>> 3) ||| (v <<< (8 - 3))) % 256) 3 = v := by decide

/-- Rotating the whole buffer left by 3 undoes the encoder's rotate-right
stage, byte for byte. -/
lemma rotStage_encodeP2 (P1 : List Nat) (h : ∀ x ∈ P1, x < 256) :
    rotStage (encodeP2 P1) = P1 := by
  unfold rotStage encodeP2
  rw [List.map_map]
  have heq : P1.map ((fun v => brotate_left v 3) ∘
      fun v => ((v >>> 3) ||| (v <<< (8 - 3))) % 256) = P1.map id :=
    List.map_congr_left fun x hx => rot3_cancel_byte x (h x hx)
  simpa using heq

/-! ### `List.set` / `List.getD` helpers -/

lemma getD_set_ne (l : List Nat) (n i v : Nat) (h : n ≠ i) :
    (l.set n v).getD i 0 = l.getD i 0 := by
  simp [List.getD_eq_getElem?_getD, List.getElem?_set_ne h]

lemma getD_set_self (l : List Nat) (n v : Nat) (h : n < l.length) :
    (l.set n v).getD n 0 = v := by
  simp [List.getD_eq_getElem?_getD, List.getElem?_set_self, h]

lemma set_getD_self : ∀ (l : List Nat) (n : Nat), n < l.length → l.set n (l.getD n 0) = l
  | [], n, h => by simp at h
  | a :: t, 0, _ => by simp [List.getD]
  | a :: t, n + 1, h => by
    simp only [List.set, List.getD_cons_succ]
    rw [set_getD_self t n (by simpa using h)]

lemma length_setByte (l : List Nat) (i : Int) (v : Nat) :
    (setByte l i v).length = l.length := by
  unfold setByte
  split <;> simp

/-! ### `desenmascarar` structure lemmas -/

lemma length_desenLoop (mask S : List Nat) (seed : Int) :
    ∀ (n : Nat) (img : List Nat), (desenLoop mask S seed n img).length = img.length
  | 0, _ => rfl
  | n + 1, img => by
    simp [desenLoop, length_setByte, length_desenLoop mask S seed n img]

lemma length_desenmascarar (img mask S : List Nat) (seed tb : Int) :
    (desenmascarar img mask S seed tb).length = img.length := by
  unfold desenmascarar
  split
  · rfl
  · exact length_desenLoop mask S seed tb.toNat img

lemma desenLoop_getD_out (mask S img : List Nat) (seed : Int) (i : Nat) :
    ∀ n : Nat, ((i : Int) < seed ∨ seed + n ≤ (i : Int)) →
      (desenLoop mask S seed n img).getD i 0 = img.getD i 0 := by
  intro n
  induction n with
  | zero => intro _; rfl
  | succ m ih =>
    intro hi
    have hne : (seed + (m : Int)) ≠ (i : Int) := by omega
    have hrest : (i : Int) < seed ∨ seed + (m : Int) ≤ (i : Int) := by omega
    simp only [desenLoop, setByte]
    split
    · next hpos =>
      have htoNat : ((seed + (m : Int)).toNat : Int) = seed + (m : Int) :=
        Int.toNat_of_nonneg hpos
      have : (seed + (m : Int)).toNat ≠ i := by omega
      rw [getD_set_ne _ _ _ _ this, ih hrest]
    · exact ih hrest

lemma desenLoop_getD_in (mask S img : List Nat) (seed : Int) (hseed : 0 ≤ seed) :
    ∀ n k : Nat, k < n → seed.toNat + n ≤ img.length →
      (desenLoop mask S seed n img).getD (seed.toNat + k) 0
        = restoreByte (S.getD k 0) (mask.getD k 0) := by
  intro n
  induction n with
  | zero => omega
  | succ m ih =>
    intro k hk hlen
    have hpos : 0 ≤ seed + (m : Int) := by omega
    have htoNat : (seed + (m : Int)).toNat = seed.toNat + m := by omega
    simp only [desenLoop, setByte, if_pos hpos, htoNat]
    rcases Nat.lt_or_ge k m with hkm | hkm
    · have hne : seed.toNat + m ≠ seed.toNat + k := by omega
      rw [getD_set_ne _ _ _ _ hne]
      exact ih k hkm (by omega)
    · have hkeq : k = m := by omega
      subst hkeq
      exact getD_set_self _ _ _ (by rw [length_desenLoop]; omega)

lemma desen_getD_out (img mask S : List Nat) (seed tb : Int) (i : Nat)
    (hi : (i : Int) < seed ∨ seed + tb ≤ (i : Int)) :
    (desenmascarar img mask S seed tb).getD i 0 = img.getD i 0 := by
  unfold desenmascarar
  split
  · rfl
  · next hpos =>
    exact desenLoop_getD_out mask S img seed i tb.toNat (by omega)

lemma desen_getD_in (img mask S : List Nat) (seed tb : Int) (k : Nat)
    (hseed : 0 ≤ seed) (hk : (k : Int) < tb) (hlen : seed + tb ≤ (img.length : Int)) :
    (desenmascarar img mask S seed tb).getD (seed.toNat + k) 0
      = restoreByte (S.getD k 0) (mask.getD k 0) := by
  unfold desenmascarar
  split
  · omega
  · exact desenLoop_getD_in mask S img seed hseed tb.toNat k (by omega) (by omega)

/-- When every restored byte equals the byte already present,
`desenmascarar` is the identity. -/
lemma desen_eq_self (img mask S : List Nat) (seed tb : Int)
    (hseed : 0 ≤ seed) (hlen : seed + tb ≤ (img.length : Int))
    (hexact : ∀ k : Nat, (k : Int) < tb →
      restoreByte (S.getD k 0) (mask.getD k 0) = img.getD (seed.toNat + k) 0) :
    desenmascarar img mask S seed tb = img := by
  unfold desenmascarar
  split
  · rfl
  · next hpos =>
    have main : ∀ n : Nat, (n : Int) ≤ tb → desenLoop mask S seed n img = img := by
      intro n
      induction n with
      | zero => intro _; rfl
      | succ m ih =>
        intro hm
        have hrest : (m : Int) ≤ tb := by omega
        have h0 : 0 ≤ seed + (m : Int) := by omega
        have htoNat : (seed + (m : Int)).toNat = seed.toNat + m := by omega
        simp only [desenLoop, ih hrest, setByte, if_pos h0, htoNat]
        rw [hexact m (by omega)]
        exact set_getD_self img (seed.toNat + m) (by omega)
    exact main tb.toNat (by omega)

lemma countPixels_eq_div : ∀ l : List Int, countPixels l = l.length / 3
  | [] => rfl
  | [_] => by simp [countPixels]
  | [_, _] => by simp [countPixels]
  | _ :: _ :: _ :: rest => by
    have ih := countPixels_eq_div rest
    simp only [countPixels, ih, List.length_cons]
    omega

set_option maxRecDepth 4000 in
lemma rotate_round_trip_aux : ∀ v, v < 256 → ∀ k, k < 8 →
    rotateLeft (rotateRight v k) k = v ∧ rotateRight (rotateLeft v k) k = v ∧
    brotate_left (rotateRight v k) k = v := by decide

/-! ### Claims -/

/-- **C2.** Mask restoration computes each restored byte as the recorded
original value minus the mask buffer's value modulo 256 (unsigned
wraparound, never clamping): for every byte index `k` in the restored
region, `img[seed+k] = (S[k] - M[k]) mod 256`.  (`hS` and `hM` record the
call-site invariants: parsed values are `unsigned int`, mask values are
bytes.) -/
theorem C2_restore_mod256 (img mask S : List Nat) (seed tb : Int) (k : Nat)
    (hseed : 0 ≤ seed) (hk : (k : Int) < tb) (hlen : seed + tb ≤ (img.length : Int))
    (hS : S.getD k 0 < UINT_MOD) (hM : mask.getD k 0 < 256) :
    ((desenmascarar img mask S seed tb).getD (seed.toNat + k) 0 : Int)
      = ((S.getD k 0 : Int) - (mask.getD k 0 : Int)) % 256 := by
  rw [desen_getD_in img mask S seed tb k hseed hk hlen]
  exact restoreByte_cast_int (S.getD k 0) (mask.getD k 0)

/-- Witness for C2, at the spec's wraparound scenario: `S[k] = 0x02`,
`M[k] = 0xFF` gives restored byte `(2 - 255) mod 256 = 0x03`. -/
theorem C2_restore_mod256_witness :
    ((desenmascarar [0, 0, 0] [255] [2] 0 1).getD 0 0 : Int) = ((2 : Int) - 255) % 256 ∧
    ((2 : Int) - 255) % 256 = 3 :=
  ⟨C2_restore_mod256 [0, 0, 0] [255] [2] 0 1 0 (by decide) (by decide) (by decide)
      (by decide) (by decide),
   by decide⟩

/-- **C4.** Rotation round trip: for every byte `v` and every `k ∈ [0,7]`,
`rotateLeft (rotateRight v k) k = v` and `rotateRight (rotateLeft v k) k = v`;
`brotate_left`, the decoder's rotate-left, also undoes `rotateRight`. -/
theorem C4_rotate_round_trip (v k : Nat) (hv : v < 256) (hk : k < 8) :
    rotateLeft (rotateRight v k) k = v ∧ rotateRight (rotateLeft v k) k = v ∧
    brotate_left (rotateRight v k) k = v :=
  rotate_round_trip_aux v hv k hk

/-- Witness for C4 at `v = 0xA7`, `k = 3`. -/
theorem C4_rotate_round_trip_witness :
    rotateLeft (rotateRight 167 3) 3 = 167 ∧ rotateRight (rotateLeft 167 3) 3 = 167 ∧
    brotate_left (rotateRight 167 3) 3 = 167 :=
  C4_rotate_round_trip 167 3 (by decide) (by decide)

/-- **C5.** Concrete end-to-end scenario: a 2×2 buffer (12 bytes) of zeros
with secret `R` all `0x0F` encodes to `P1` all `0x0F`, `P2` all
`rotateRight 0x0F 3 = 0xE1`, `P3` all `0xE1 XOR 0x0F = 0xEE`; decoding `P3`
with the same `R` and no mask records (empty mask buffer and empty mask
files) returns the all-zero buffer. -/
theorem C5_concrete_scenario :
    encodeP1 (List.replicate 12 0) (List.replicate 12 15) = List.replicate 12 15 ∧
    encodeP2 (List.replicate 12 15) = List.replicate 12 225 ∧
    rotateRight 15 3 = 225 ∧
    encodeP3 (List.replicate 12 225) (List.replicate 12 15) = List.replicate 12 238 ∧
    bxor 225 15 = 238 ∧
    decoderMain 2 2 (encode (List.replicate 12 0) (List.replicate 12 15)) 2 2
        (List.replicate 12 15) 0 0 [] 0 0 [] 0 0 []
      = some (List.replicate 12 0) := by decide

/-- **C7.** Mask file parsing is greedy on complete triplets: for a token
stream of a seed followed by `3*q + r` integers with `r < 3`, the parser
returns seed `s`, exactly `q` triplets, and the `unsigned int` values of
the first `3*q` integers; the `r` leftover integers are discarded without
error. -/
theorem C7_parse_greedy (s : Int) (ints : List Int) (q r : Nat)
    (hlen : ints.length = 3 * q + r) (hr : r < 3) :
    loadSeedMasking (s :: ints) = ⟨s, q, (ints.take (3 * q)).map toU32⟩ := by
  have hcount : countPixels ints = q := by
    rw [countPixels_eq_div, hlen]
    omega
  simp [loadSeedMasking, hcount]

/-- Witness for C7, at the spec's boundary example: a seed, 2 full triplets
and 1 stray integer parse as exactly 2 triplets, no error. -/
theorem C7_parse_greedy_witness :
    loadSeedMasking [5, 1, 2, 3, 4, 5, 6, 7] = ⟨5, 2, [1, 2, 3, 4, 5, 6]⟩ :=
  C7_parse_greedy 5 [1, 2, 3, 4, 5, 6, 7] 2 1 (by decide) (by decide)

/-- **C8, counterexample.** The claim says a component outside `[0,255]`
makes parsing fail with `MalformedMaskFile`; the code has no range check at
all: a file `0 300 0 0` parses successfully into a record whose first
component is 300. -/
theorem C8_counterexample :
    (loadSeedMasking [0, 300, 0, 0]).n_pixels = 1 ∧
    (loadSeedMasking [0, 300, 0, 0]).S = [300, 0, 0] ∧
    ¬ (300 : Nat) ≤ 255 := by decide

/-- **C8, amended.** `loadSeedMasking` never rejects a component: every
component of a parsed record is the `unsigned int` value (mod 2^32) of the
integer read, so it lies in `[0, 2^32)`, not necessarily in `[0, 255]`. -/
theorem C8_no_range_check (tokens : List Int) (x : Nat)
    (hx : x ∈ (loadSeedMasking tokens).S) : x < UINT_MOD := by
  cases tokens with
  | nil => simp [loadSeedMasking] at hx
  | cons s rest =>
    simp only [loadSeedMasking, List.mem_map] at hx
    obtain ⟨y, -, rfl⟩ := hx
    unfold toU32 UINT_MOD
    omega

/-- Witness for the amended C8: the out-of-range component 300 is accepted
and stored. -/
theorem C8_no_range_check_witness : (300 : Nat) < UINT_MOD :=
  C8_no_range_check [0, 300, 0, 0] 300 (by decide)

/-- **C9.** Frame property of `desenmascarar`: for a call whose region
`[seed, seed + totalBytes)` lies inside the image, every byte at an index
outside the region is unchanged. -/
theorem C9_frame (img mask S : List Nat) (seed tb : Int) (i : Nat)
    (hseed : 0 ≤ seed) (hlen : seed + tb ≤ (img.length : Int))
    (hi : (i : Int) < seed ∨ seed + tb ≤ (i : Int)) :
    (desenmascarar img mask S seed tb).getD i 0 = img.getD i 0 :=
  desen_getD_out img mask S seed tb i hi

/-- Witness for C9: restoring one byte at seed 1 leaves byte 3 unchanged. -/
theorem C9_frame_witness :
    (desenmascarar [1, 2, 3, 4] [9] [9] 1 1).getD 3 0 = 4 :=
  C9_frame [1, 2, 3, 4] [9] [9] 1 1 3 (by decide) (by decide) (by decide)

/-- **C10, counterexample.** The claim says the decoder's validation
guarantees every written index is in bounds, and in particular that the
parsed seed is non-negative.  `loadSeedMasking` accepts a negative seed:
the file `-3 1 2 3` parses with seed `-3`, and with `totalMaskBytes = 3`
and `dataSize = 12` the decoder's check `n*3 >= totalMaskBytes &&
seed + totalMaskBytes <= dataSize` passes even though the first written
index `seed + 0 = -3` is outside `[0, 12)`. -/
theorem C10_counterexample :
    (loadSeedMasking [-3, 1, 2, 3]).seed = -3 ∧
    ((loadSeedMasking [-3, 1, 2, 3]).n_pixels : Int) * 3 ≥ 3 ∧
    (loadSeedMasking [-3, 1, 2, 3]).seed + 3 ≤ 12 ∧
    ¬ 0 ≤ (loadSeedMasking [-3, 1, 2, 3]).seed := by decide

/-- **C10, amended.** Under the decoder's validation *plus* the extra
hypothesis `0 ≤ seed` (which the validation itself does not ensure), every
index `seed + k` written by `desenmascarar` for `k < totalBytes` lies
within the buffer bounds. -/
theorem C10_inbounds (img mask S : List Nat) (seed tb : Int) (n : Nat)
    (hval1 : (n : Int) * 3 ≥ tb) (hval2 : seed + tb ≤ (img.length : Int))
    (hseed : 0 ≤ seed) (k : Nat) (hk : (k : Int) < tb) :
    0 ≤ seed + (k : Int) ∧
    seed + (k : Int) < ((desenmascarar img mask S seed tb).length : Int) := by
  rw [length_desenmascarar]
  omega

/-- **C1.** Round trip: for buffers `X` and `R` of equal size `w*h*3`,
running the decoder (XOR with `R`; mask-restore `S2` then whole-buffer
rotate-left 3; mask-restore `S1` then XOR with `R`) on the encoder's
output `P3 = (rotateRight3 (X XOR R)) XOR R` reconstructs `X` bit-exactly.
"The MaskRecords exactly describe the patched regions" is hypotheses
`hS1`/`hS2`: each recorded value is the (additively masked) byte the
buffer actually holds at that stage, so restoration returns exactly the
byte the stage needs; the decoder's validation (`hn*`, `hb*`) passes and
seeds are in range. -/
theorem C1_round_trip
    (w h mi mj : Nat) (X R mask : List Nat)
    (seed1 seed2 : Int) (n1 n2 : Nat) (S1 S2 : List Nat)
    (hX : X.length = w * h * 3) (hR : R.length = w * h * 3)
    (hpos : 0 < w * h * 3)
    (hXb : ∀ x ∈ X, x < 256) (hRb : ∀ x ∈ R, x < 256)
    (hMb : ∀ x ∈ mask, x < 256) (hmask : mask.length = mi * mj * 3)
    (hn2 : (n2 : Int) * 3 ≥ ((mi * mj * 3 : Nat) : Int))
    (hs2 : 0 ≤ seed2)
    (hb2 : seed2 + ((mi * mj * 3 : Nat) : Int) ≤ ((w * h * 3 : Nat) : Int))
    (hn1 : (n1 : Int) * 3 ≥ ((mi * mj * 3 : Nat) : Int))
    (hs1 : 0 ≤ seed1)
    (hb1 : seed1 + ((mi * mj * 3 : Nat) : Int) ≤ ((w * h * 3 : Nat) : Int))
    (hS2 : ∀ k : Nat, k < mi * mj * 3 →
      S2.getD k 0
        = ((encodeP2 (encodeP1 X R)).getD (seed2.toNat + k) 0 + mask.getD k 0) % 256)
    (hS1 : ∀ k : Nat, k < mi * mj * 3 →
      S1.getD k 0 = ((encodeP1 X R).getD (seed1.toNat + k) 0 + mask.getD k 0) % 256) :
    decoderMain w h (encode X R) w h R mi mj mask seed1 n1 S1 seed2 n2 S2 = some X := by
  have hXR : X.length = R.length := by omega
  have hP1len : (encodeP1 X R).length = w * h * 3 := by rw [length_encodeP1 X R hXR, hX]
  have hP2len : (encodeP2 (encodeP1 X R)).length = w * h * 3 := by
    rw [length_encodeP2, hP1len]
  have hP1b : ∀ y ∈ encodeP1 X R, y < 256 := encodeP1_mem_lt X R hXb hRb
  have hstage3 : xorStage (encode X R) R = encodeP2 (encodeP1 X R) :=
    xorStage_cancel (encodeP2 (encodeP1 X R)) R (by rw [hP2len, hR])
  have hdesen2 : desenmascarar (encodeP2 (encodeP1 X R)) mask S2 seed2
      ((mi * mj * 3 : Nat) : Int) = encodeP2 (encodeP1 X R) := by
    apply desen_eq_self _ _ _ _ _ hs2 (by rw [hP2len]; exact hb2)
    intro k hk
    have hk' : k < mi * mj * 3 := by omega
    have hmem : mask.getD k 0 ∈ mask := by
      rw [List.getD_eq_getElem mask 0 (by omega)]
      exact List.getElem_mem _
    rw [hS2 k hk']
    exact restoreByte_add _ _ (encodeP2_getD_lt _ _) (hMb _ hmem)
  have hrot : rotStage (encodeP2 (encodeP1 X R)) = encodeP1 X R :=
    rotStage_encodeP2 _ hP1b
  have hdesen1 : desenmascarar (encodeP1 X R) mask S1 seed1
      ((mi * mj * 3 : Nat) : Int) = encodeP1 X R := by
    apply desen_eq_self _ _ _ _ _ hs1 (by rw [hP1len]; exact hb1)
    intro k hk
    have hk' : k < mi * mj * 3 := by omega
    have hmem : mask.getD k 0 ∈ mask := by
      rw [List.getD_eq_getElem mask 0 (by omega)]
      exact List.getElem_mem _
    have hidx : seed1.toNat + k < (encodeP1 X R).length := by rw [hP1len]; omega
    have hP1k : (encodeP1 X R).getD (seed1.toNat + k) 0 ∈ encodeP1 X R := by
      rw [List.getD_eq_getElem _ 0 hidx]
      exact List.getElem_mem _
    rw [hS1 k hk']
    exact restoreByte_add _ _ (hP1b _ hP1k) (hMb _ hmem)
  have hstage1 : xorStage (encodeP1 X R) R = X := xorStage_cancel X R hXR
  have hdim : ¬ (w ≠ w ∨ h ≠ h) := by simp
  have hg3 : 0 < ((w * h * 3 : Nat) : Int) := by exact_mod_cast hpos
  simp only [decoderMain, if_neg hdim, and_true]
  rw [if_pos hg3, if_pos (And.intro hn2 hb2), if_pos (And.intro hn1 hb1),
    hstage3, hdesen2, hrot, hdesen1, hstage1]

/-- Witness for C1: the 2×2 all-zero buffer with secret all `0x0F`, a 1×1
mask buffer of zeros and records that exactly describe the 3-byte region
at seed 0 of each masked stage, decodes back to the all-zero buffer. -/
theorem C1_round_trip_witness :
    decoderMain 2 2 (encode (List.replicate 12 0) (List.replicate 12 15)) 2 2
        (List.replicate 12 15) 1 1 [0, 0, 0] 0 1 [15, 15, 15] 0 1 [225, 225, 225]
      = some (List.replicate 12 0) := by
  apply C1_round_trip <;> decide

/-- **C3, counterexample.** The claim says that when a record's validation
fails the decoder skips *only* the restoration and still performs the
accompanying whole-buffer rotate-left.  In the code the rotation sits
inside the same `if`: with `S2` invalid (0 triplets, `totalMaskBytes = 3`)
and `S1` valid, bytes 3..5 of the output are the un-rotated 8s; had the
rotate-left still run they would be `brotate_left 8 3 = 64`. -/
theorem C3_counterexample :
    decoderMain 2 1 [8, 8, 8, 8, 8, 8] 2 1 [0, 0, 0, 0, 0, 0] 1 1 [0, 0, 0]
        0 1 [1, 2, 3] 0 0 []
      = some [1, 2, 3, 8, 8, 8] ∧
    rotStage [8, 8, 8, 8, 8, 8] = [64, 64, 64, 64, 64, 64] := by decide

/-- **C3, amended.** When a mask record's validation fails, the decoder
skips that record's *entire* stage — the restoration **and** the
accompanying whole-buffer rotate-left — reports the failure, and still
executes the remaining stages: with `S2` invalid and `S1` valid the result
is exactly XOR, then `S1` restoration, then XOR, with no rotation. -/
theorem C3_skip_whole_stage (w h : Nat) (img imRand : List Nat) (mi mj : Nat)
    (mask : List Nat) (seed1 : Int) (n1 : Nat) (S1 : List Nat)
    (seed2 : Int) (n2 : Nat) (S2 : List Nat)
    (hpos : 0 < w * h * 3)
    (h2fail : ¬ ((n2 : Int) * 3 ≥ ((mi * mj * 3 : Nat) : Int) ∧
      seed2 + ((mi * mj * 3 : Nat) : Int) ≤ ((w * h * 3 : Nat) : Int)))
    (h1ok : (n1 : Int) * 3 ≥ ((mi * mj * 3 : Nat) : Int) ∧
      seed1 + ((mi * mj * 3 : Nat) : Int) ≤ ((w * h * 3 : Nat) : Int)) :
    decoderMain w h img w h imRand mi mj mask seed1 n1 S1 seed2 n2 S2
      = some (xorStage (desenmascarar (xorStage img imRand) mask S1 seed1
          ((mi * mj * 3 : Nat) : Int)) imRand) := by
  have hdim : ¬ (w ≠ w ∨ h ≠ h) := by simp
  have hg3 : 0 < ((w * h * 3 : Nat) : Int) := by exact_mod_cast hpos
  simp only [decoderMain, if_neg hdim, and_true]
  rw [if_pos hg3, if_neg h2fail, if_pos h1ok]

/-- Witness for the amended C3, at the counterexample's input. -/
theorem C3_skip_whole_stage_witness :
    decoderMain 2 1 [8, 8, 8, 8, 8, 8] 2 1 [0, 0, 0, 0, 0, 0] 1 1 [0, 0, 0]
        0 1 [1, 2, 3] 0 0 []
      = some (xorStage (desenmascarar (xorStage [8, 8, 8, 8, 8, 8] [0, 0, 0, 0, 0, 0])
          [0, 0, 0] [1, 2, 3] 0 ((1 * 1 * 3 : Nat) : Int)) [0, 0, 0, 0, 0, 0]) :=
  C3_skip_whole_stage 2 1 [8, 8, 8, 8, 8, 8] [0, 0, 0, 0, 0, 0] 1 1 [0, 0, 0]
    0 1 [1, 2, 3] 0 0 [] (by decide) (by decide) (by decide)

/-- **C6, counterexample.** The claim says a mask-restore step writes
exactly `[seed, seed + triplets.length*3)`.  Here the record has 2
triplets (`patchLength` would be 6) but the mask buffer has
`totalMaskBytes = 3` bytes; the decoder's stage-2 step restores only 3
bytes, and output byte 3 — inside `[0, 6)` — still depends on the input
image (`rotStage` of 7 gives 56, of 9 gives 72), so it was not written. -/
theorem C6_counterexample :
    decoderMain 2 1 [7, 7, 7, 7, 7, 7] 2 1 [0, 0, 0, 0, 0, 0] 1 1 [0, 0, 0]
        0 0 [] 0 2 [1, 2, 3, 4, 5, 6]
      = some [8, 16, 24, 56, 56, 56] ∧
    decoderMain 2 1 [7, 7, 7, 9, 7, 7] 2 1 [0, 0, 0, 0, 0, 0] 1 1 [0, 0, 0]
        0 0 [] 0 2 [1, 2, 3, 4, 5, 6]
      = some [8, 16, 24, 72, 56, 56] := by decide

/-- **C6, amended.** A mask-restore step writes exactly the byte indices
`[seed, seed + totalMaskBytes)` where `totalMaskBytes` is the byte count
of the mask buffer `M` (the record's triplet count is only required to
satisfy `triplets.length*3 ≥ totalMaskBytes`): every index in the region
receives the restored byte, every index outside it is unchanged. -/
theorem C6_region (img mask S : List Nat) (seed tb : Int)
    (htb : tb = (mask.length : Int)) (hseed : 0 ≤ seed)
    (hb : seed + tb ≤ (img.length : Int)) :
    (∀ k : Nat, (k : Int) < tb →
      (desenmascarar img mask S seed tb).getD (seed.toNat + k) 0
        = restoreByte (S.getD k 0) (mask.getD k 0)) ∧
    (∀ i : Nat, ((i : Int) < seed ∨ seed + tb ≤ (i : Int)) →
      (desenmascarar img mask S seed tb).getD i 0 = img.getD i 0) :=
  ⟨fun k hk => desen_getD_in img mask S seed tb k hseed hk hb,
   fun i hi => desen_getD_out img mask S seed tb i hi⟩

/-- Witness for the amended C6: with a 3-byte mask buffer and a 6-value
record, byte 1 of the region is restored and byte 4 is untouched. -/
theorem C6_region_witness :
    (desenmascarar [7, 7, 7, 7, 7, 7] [0, 0, 0] [1, 2, 3, 4, 5, 6] 0 3).getD
        ((0 : Int).toNat + 1) 0 = restoreByte 2 0 ∧
    (desenmascarar [7, 7, 7, 7, 7, 7] [0, 0, 0] [1, 2, 3, 4, 5, 6] 0 3).getD 4 0
      = [7, 7, 7, 7, 7, 7].getD 4 0 :=
  ⟨(C6_region [7, 7, 7, 7, 7, 7] [0, 0, 0] [1, 2, 3, 4, 5, 6] 0 3 (by decide)
      (by decide) (by decide)).1 1 (by decide),
   (C6_region [7, 7, 7, 7, 7, 7] [0, 0, 0] [1, 2, 3, 4, 5, 6] 0 3 (by decide)
      (by decide) (by decide)).2 4 (by decide)⟩

/-- Witness for the amended C10. -/
theorem C10_inbounds_witness :
    0 ≤ (0 : Int) + (2 : Nat) ∧
    (0 : Int) + (2 : Nat)
      < ((desenmascarar (List.replicate 12 0) [0, 0, 0] [1, 2, 3] 0 3).length : Int) :=
  C10_inbounds (List.replicate 12 0) [0, 0, 0] [1, 2, 3] 0 3 1 (by decide) (by decide)
    (by decide) 2 (by decide)

end Desafio
